import Mathlib

/-!
Formal model of the Kobzar CCS object/service/channel substrate
(`src/src/lib.rs`).  The repository contains only trait declarations with
documentation comments and no method bodies, so the operational behaviour
of the registry and of the socket protocol is modelled from the
specification, while every enum, struct field and function signature is
taken directly from the source.  Identifiers are modelled as natural
numbers: the source only requires them to be stable, unique and
comparable.
-/

namespace CCS

/-- Identifier of a service (`Service::Id` in the source): opaque,
equality-comparable. -/
abbrev ServiceId := Nat

/-- Identifier of an object (`Object::Id` in the source): opaque,
equality-comparable. -/
abbrev ObjectId := Nat

/-- Opaque payload transferred via channels (trait `Data` in the source). -/
abbrev Data := Nat

/-- Enum `RegistrationErr` from the source: errors on failed service
registration. -/
inductive RegistrationErr where
  | UniquelyRegistered
  | AlreadyRegistered
deriving DecidableEq, Repr

/-- Enum `SocketErr` from the source: errors of socket operations. -/
inductive SocketErr where
  | ChannelClosed
  | Lockup
deriving DecidableEq, Repr

/-- Enum `ObjectKillErr` from the source: errors on a failed attempt to
kill an object. -/
inductive ObjectKillErr where
  | NotAlive
deriving DecidableEq, Repr

/-- Enum `AbortResult` from the source: result of running a function that
could get aborted when the channel closes. -/
inductive AbortResult where
  | Aborted
  | Finished
deriving DecidableEq, Repr

/-- Trait `Service` of the source: a service value carries exactly the
information recoverable through its two methods, namely its identifier. -/
structure Service where
  id : ServiceId
deriving DecidableEq, Repr

/-- Modelled from the spec: the source gives only the signature
`fn by_id(id: Self::Id) -> Self` and its documentation — make a service
pointer with the given identifier; always succeeds, performs no
registration, establishes no channel. -/
def Service.by_id (i : ServiceId) : Service := ⟨i⟩

/-- Struct `RegistrationForm` of the source: entry point reference plus
the identifier of the service.  The entry function of the source,
`fn(SC) -> !`, is modelled as an opaque handler reference. -/
structure RegistrationForm where
  entry : Nat
  id : ServiceId
deriving DecidableEq, Repr

/-- Uniqueness class of a registration record (spec §3: `{Shared | Unique}`). -/
inductive Uniqueness where
  | Shared
  | Unique
deriving DecidableEq, Repr

/-- Modelled from the spec: registration record owned by the Registry,
`{id, owner, uniqueness, handler, liveness}` (spec §3).  The source keeps
the record behind the `OwnedService` capability; the capability is
modelled as the record itself. -/
structure RegRecord where
  id : ServiceId
  owner : ObjectId
  uniq : Uniqueness
  handler : Nat
  live : Bool
deriving DecidableEq, Repr

/-- Modelled from the spec: the Registry is the process-wide table of
registration records (spec §4.1). -/
abbrev Registry := List RegRecord

/-- A record is a live registration for identifier `i`. -/
def isLiveFor (i : ServiceId) (r : RegRecord) : Bool :=
  r.id == i && r.live

/-- A record is a live `Unique` registration for identifier `i`. -/
def isUniqueLiveFor (i : ServiceId) (r : RegRecord) : Bool :=
  isLiveFor i r && r.uniq == Uniqueness.Unique

/-- Some live registration for `i` exists in the registry. -/
def liveFor (reg : Registry) (i : ServiceId) : Bool :=
  reg.any (isLiveFor i)

/-- Some live `Unique` registration for `i` exists in the registry. -/
def uniqueLiveFor (reg : Registry) (i : ServiceId) : Bool :=
  reg.any (isUniqueLiveFor i)

/-- Number of live `Unique` registrations for `i` in the registry. -/
def uniqueCount (reg : Registry) (i : ServiceId) : Nat :=
  (reg.filter (isUniqueLiveFor i)).length

/-- Modelled from the spec: the source declares
`OpenNetwork::register` without a body; succeeds unless a `Unique`
registration already exists for `form.id`, in which case it fails with
`UniquelyRegistered`; on success inserts a `Shared` record and returns it
as the `OwnedService` capability (spec §4.1). -/
def register (reg : Registry) (form : RegistrationForm) (owner : ObjectId) :
    Except RegistrationErr (Registry × RegRecord) :=
  if uniqueLiveFor reg form.id then
    .error .UniquelyRegistered
  else
    let r : RegRecord := ⟨form.id, owner, .Shared, form.entry, true⟩
    .ok (r :: reg, r)

/-- Modelled from the spec: the source declares
`OpenNetwork::register_unique` without a body; succeeds only if no live
registration, shared or unique, currently exists for `form.id`, otherwise
fails with `AlreadyRegistered`; on success inserts a `Unique` record
(spec §4.1). -/
def register_unique (reg : Registry) (form : RegistrationForm) (owner : ObjectId) :
    Except RegistrationErr (Registry × RegRecord) :=
  if liveFor reg form.id then
    .error .AlreadyRegistered
  else
    let r : RegRecord := ⟨form.id, owner, .Unique, form.entry, true⟩
    .ok (r :: reg, r)

/-- Modelled from the spec: the source declares
`OwnedService::discontinue(self)` without a body; removes the record,
freeing the id, and hands back a `RegistrationForm` with which the
discontinued service can be registered again (spec §4.1).  Consumption of
the capability is the move in the source signature; in the model the
record disappears from the registry. -/
def discontinue (reg : Registry) (owned : RegRecord) :
    Registry × RegistrationForm :=
  (reg.erase owned, ⟨owned.handler, owned.id⟩)

/-- Modelled from the spec: `on_object_death(owner)` removes every
registration owned by the dying object (spec §4.1). -/
def on_object_death (reg : Registry) (owner : ObjectId) : Registry :=
  reg.filter (fun r => !(r.owner == owner))

/-- Modelled from the spec: `lookup(id)` returns a matching live record,
if any (spec §4.1). -/
def lookup (reg : Registry) (i : ServiceId) : Option RegRecord :=
  reg.find? (isLiveFor i)

/-- Trait `Socket` state visible through `requester()`, `service()` and
`is_opened()` in the source: one requester object, one provider object,
one service, and the open flag. -/
structure Socket where
  requester : ObjectId
  provider : ObjectId
  serviceId : ServiceId
  opened : Bool
deriving DecidableEq, Repr

/-- Modelled from the spec: the scheduled invocation of the registered
entry handler with the provider-side socket endpoint (spec §4.3). -/
structure ScheduledEntry where
  handler : Nat
  endpointSocket : Socket
deriving DecidableEq, Repr

/-- Modelled from the spec: the source declares `OpenNetwork::connect`
returning `Result<SC, S>` without a body; look up a live registration for
the requested id; if found, build a socket bound to the caller and the
chosen provider and schedule the provider entry handler; if none is
found, return the original service value back to the caller (spec §4.3). -/
def connect (reg : Registry) (caller : ObjectId) (s : Service) :
    Except Service (Socket × ScheduledEntry) :=
  match lookup reg s.id with
  | some r =>
    let sock : Socket := ⟨caller, r.owner, s.id, true⟩
    .ok (sock, ⟨r.handler, sock⟩)
  | none => .error s

/-- Channel as seen at the system level: two fixed endpoints and the open
flag (spec §3). -/
structure Channel where
  requester : ObjectId
  provider : ObjectId
  opened : Bool
deriving DecidableEq, Repr

/-- Modelled from the spec: the system state touched by object teardown —
the registry, the channels, and the set of alive objects (spec §4.3). -/
structure System where
  registry : Registry
  channels : List Channel
  alive : List ObjectId
deriving DecidableEq, Repr

/-- Modelled from the spec: the source gives only the signature
`fn is_alive(&self) -> bool`; the object is alive when it is in the set
of alive objects. -/
def is_alive (sys : System) (o : ObjectId) : Bool :=
  decide (o ∈ sys.alive)

/-- Modelled from the spec: the source declares `OwnedObject::kill(self)`
without a body; fails with `NotAlive` when the object is not alive;
otherwise discontinues all registrations of the object via
`on_object_death`, closes every channel where it is an endpoint, and
removes it from the alive set (spec §4.3). -/
def kill (sys : System) (o : ObjectId) : Except ObjectKillErr System :=
  if is_alive sys o then
    .ok
      { registry := on_object_death sys.registry o
        channels := sys.channels.map fun c =>
          if c.requester == o || c.provider == o then { c with opened := false } else c
        alive := sys.alive.filter (fun x => !(x == o)) }
  else
    .error .NotAlive

/-- The two endpoints of one channel (spec §3: exactly one requester and
one provider, fixed for the channel lifetime). -/
inductive Endpoint where
  | A
  | B
deriving DecidableEq, Repr

/-- The other endpoint of the channel. -/
def Endpoint.peer : Endpoint → Endpoint
  | .A => .B
  | .B => .A

/-- In-flight blocking operation of one endpoint: idle, suspended in
`receive`, or suspended in `send` holding the data to transmit. -/
inductive Pending where
  | idle
  | recvWait
  | sendWait (d : Data)
deriving DecidableEq, Repr

/-- Modelled from the spec: the state of one channel — the open flag,
the in-flight blocking operation of each endpoint, and the data delivered
to each endpoint but not yet consumed (spec §4.2). -/
structure ChanState where
  opened : Bool
  pendA : Pending
  pendB : Pending
  inboxA : List Data
  inboxB : List Data
deriving DecidableEq, Repr

/-- Pending operation of the given endpoint. -/
def ChanState.pend (st : ChanState) : Endpoint → Pending
  | .A => st.pendA
  | .B => st.pendB

/-- Undelivered data queued for the given endpoint. -/
def ChanState.inbox (st : ChanState) : Endpoint → List Data
  | .A => st.inboxA
  | .B => st.inboxB

/-- Replace the pending operation of the given endpoint. -/
def ChanState.withPend (st : ChanState) : Endpoint → Pending → ChanState
  | .A, p => { st with pendA := p }
  | .B, p => { st with pendB := p }

/-- Replace the inbox of the given endpoint. -/
def ChanState.withInbox (st : ChanState) : Endpoint → List Data → ChanState
  | .A, l => { st with inboxA := l }
  | .B, l => { st with inboxB := l }

/-- Outcome of issuing `receive` at one endpoint. -/
inductive RecvOutcome where
  | got (d : Data)
  | fail (e : SocketErr)
  | blocked
deriving DecidableEq, Repr

/-- Outcome of issuing `send` at one endpoint. -/
inductive SendOutcome where
  | sent
  | fail (e : SocketErr)
  | blocked
deriving DecidableEq, Repr

/-- Modelled from the spec: the source declares `Socket::receive` without
a body): fails with `ChannelClosed` on a closed channel; consumes queued
data when present; completes a peer suspended in `send`; reports `Lockup`
to this caller when the peer is already suspended in the symmetric
`receive` with nothing to deliver — the second issuer loses (spec §4.2);
otherwise the caller suspends. -/
def receive (st : ChanState) (e : Endpoint) : RecvOutcome × ChanState :=
  if st.opened = false then (.fail .ChannelClosed, st)
  else
    match st.inbox e with
    | d :: rest => (.got d, st.withInbox e rest)
    | [] =>
      match st.pend e.peer with
      | .sendWait d => (.got d, st.withPend e.peer .idle)
      | .recvWait => (.fail .Lockup, st)
      | .idle => (.blocked, st.withPend e .recvWait)

/-- Modelled from the spec: the source declares `Socket::send` without a
body): fails with `ChannelClosed` on a closed channel; completes against a
peer suspended in `receive`; reports `Lockup` to this caller when the
peer is already suspended in the symmetric `send` — the second issuer
loses (spec §4.2); otherwise the caller suspends holding the data. -/
def send (st : ChanState) (e : Endpoint) (d : Data) : SendOutcome × ChanState :=
  if st.opened = false then (.fail .ChannelClosed, st)
  else
    match st.pend e.peer with
    | .recvWait => (.sent, st.withPend e.peer .idle)
    | .sendWait _ => (.fail .Lockup, st)
    | .idle => (.blocked, st.withPend e (.sendWait d))

/-- Modelled from the spec: the source declares `Socket::close(self)`
without a body; marks the channel closed for both endpoints (spec §4.2). -/
def close (st : ChanState) : ChanState :=
  { st with opened := false }

/-- Source `Socket::is_opened(&self)`: whether the channel is still open. -/
def is_opened (st : ChanState) : Bool :=
  st.opened

/-- Source `Socket::check(self)`: the consuming liveness probe. -/
def check (st : ChanState) : Option ChanState :=
  if st.opened then some st else none

/-- Event observable by a bounded wait before its timeout elapses: time
passing with nothing happening, data arriving from the peer, or the
channel closing. -/
inductive WaitEvent where
  | tick
  | dataArrives (d : Data)
  | channelCloses
deriving DecidableEq, Repr

/-- Scan the events of the bounded window, waiting for data or closure:
time ticks are skipped, the first arrival or closure resolves the wait,
and an exhausted window is the timeout. -/
def scanEvents (st : ChanState) :
    List WaitEvent → Option (Except SocketErr Data) × ChanState
  | [] => (none, st)
  | .tick :: rest => scanEvents st rest
  | .dataArrives d :: _ => (some (.ok d), st)
  | .channelCloses :: _ => (some (.error .ChannelClosed), close st)

/-- Modelled from the spec: the source declares `Socket::wait_to_receive`
without a body; identical to `receive` but bounded — every case of
`receive` that resolves at once (closed channel, queued data, peer
suspended in `send`, `Lockup` against a peer suspended in the symmetric
`receive`) resolves the same way here, and only the case where `receive`
would suspend waits on the bounded window, modelled as the list of
events occurring before the timeout elapses.  Returns `none` exactly
when the window passes with no data and no closure, and then has no
effect; otherwise returns `some` of the same result shape as `receive`
(spec §4.2). -/
def wait_to_receive (st : ChanState) (e : Endpoint) (evs : List WaitEvent) :
    Option (Except SocketErr Data) × ChanState :=
  if st.opened = false then (some (.error .ChannelClosed), st)
  else
    match st.inbox e with
    | d :: rest => (some (.ok d), st.withInbox e rest)
    | [] =>
      match st.pend e.peer with
      | .sendWait d => (some (.ok d), st.withPend e.peer .idle)
      | .recvWait => (some (.error .Lockup), st)
      | .idle => scanEvents st evs

/-- Delivery of one datum from the peer into the inbox of endpoint `e`
(the cross-endpoint effect allowed by spec §5). -/
def deliver (st : ChanState) (e : Endpoint) (d : Data) : ChanState :=
  st.withInbox e (st.inbox e ++ [d])

/-- Kinds of parameters of the socket data-transfer methods in the
source, after the receiver `&self`. -/
inductive SocketParam where
  | dataArg
  | timeArg
deriving DecidableEq, Repr

/-- Parameter list of `Socket::send` as declared in the source:
`fn send(&self, data: Data)`. -/
def send_params : List SocketParam :=
  [.dataArg]

/-- Parameter list of `Socket::wait_to_send` as declared in the source:
`fn wait_to_send(&self, time: Time)` — only a timeout, no data. -/
def wait_to_send_params : List SocketParam :=
  [.timeArg]

/-- One step of the channel state under the modelled socket operations. -/
inductive ChanStep : ChanState → ChanState → Prop where
  | recv (st : ChanState) (e : Endpoint) : ChanStep st (receive st e).2
  | snd (st : ChanState) (e : Endpoint) (d : Data) : ChanStep st (send st e d).2
  | cls (st : ChanState) : ChanStep st (close st)
  | waitRecv (st : ChanState) (e : Endpoint) (evs : List WaitEvent) :
      ChanStep st (wait_to_receive st e evs).2
  | dlv (st : ChanState) (e : Endpoint) (d : Data) : ChanStep st (deliver st e d)

/-- One admission step of the registry under the modelled operations. -/
inductive RegStep : Registry → Registry → Prop where
  | regOk {reg reg2 : Registry} {form : RegistrationForm} {owner : ObjectId}
      {cap : RegRecord} :
      register reg form owner = .ok (reg2, cap) → RegStep reg reg2
  | regUniqueOk {reg reg2 : Registry} {form : RegistrationForm} {owner : ObjectId}
      {cap : RegRecord} :
      register_unique reg form owner = .ok (reg2, cap) → RegStep reg reg2
  | disc {reg : Registry} (owned : RegRecord) :
      RegStep reg (discontinue reg owned).1
  | death {reg : Registry} (owner : ObjectId) :
      RegStep reg (on_object_death reg owner)

/-- The registry states reachable from the empty registry under the
admission operations. -/
def ReachableReg (reg : Registry) : Prop :=
  Relation.ReflTransGen RegStep [] reg

/-- At most one live `Unique` registration exists per service id. -/
def atMostOneUnique (reg : Registry) : Prop :=
  ∀ i : ServiceId, uniqueCount reg i ≤ 1

lemma isLiveFor_eq_true {i : ServiceId} {r : RegRecord} :
    isLiveFor i r = true ↔ r.id = i ∧ r.live = true := by
  simp [isLiveFor]

lemma isUniqueLiveFor_eq_true {i : ServiceId} {r : RegRecord} :
    isUniqueLiveFor i r = true ↔ r.id = i ∧ r.live = true ∧ r.uniq = Uniqueness.Unique := by
  simp [isUniqueLiveFor, isLiveFor, and_assoc]

lemma liveFor_of_uniqueLiveFor {reg : Registry} {i : ServiceId}
    (h : uniqueLiveFor reg i = true) : liveFor reg i = true := by
  simp only [uniqueLiveFor, List.any_eq_true] at h
  rcases h with ⟨r, hmem, hr⟩
  simp only [isUniqueLiveFor, Bool.and_eq_true] at hr
  simp only [liveFor, List.any_eq_true]
  exact ⟨r, hmem, hr.1⟩

lemma not_isLiveFor_of_liveFor_false {reg : Registry} {i : ServiceId}
    (h : liveFor reg i = false) :
    ∀ r ∈ reg, ¬ isLiveFor i r = true := by
  intro r hmem hr
  have : liveFor reg i = true := by
    simp only [liveFor, List.any_eq_true]
    exact ⟨r, hmem, hr⟩
  simp [this] at h

lemma uniqueCount_eq_zero_of_liveFor_false {reg : Registry} {i : ServiceId}
    (h : liveFor reg i = false) : uniqueCount reg i = 0 := by
  have hnil : reg.filter (isUniqueLiveFor i) = [] := by
    apply List.filter_eq_nil_iff.mpr
    intro r hmem hr
    have hl : isLiveFor i r = true := by
      simp only [isUniqueLiveFor, Bool.and_eq_true] at hr
      exact hr.1
    exact not_isLiveFor_of_liveFor_false h r hmem hl
  simp [uniqueCount, hnil]

lemma uniqueCount_le_of_sublist {reg1 reg2 : Registry} {i : ServiceId}
    (h : reg1.Sublist reg2) : uniqueCount reg1 i ≤ uniqueCount reg2 i :=
  (h.filter (isUniqueLiveFor i)).length_le

lemma uniqueCount_cons_shared {reg : Registry} {i : ServiceId} {r : RegRecord}
    (h : r.uniq = Uniqueness.Shared) :
    uniqueCount (r :: reg) i = uniqueCount reg i := by
  have hr : ¬ isUniqueLiveFor i r = true := by
    rw [isUniqueLiveFor_eq_true]
    rintro ⟨-, -, hu⟩
    rw [h] at hu
    exact Uniqueness.noConfusion hu
  simp [uniqueCount, List.filter_cons, hr]

lemma uniqueCount_cons_unique {reg : Registry} {i : ServiceId} {r : RegRecord}
    (h : isUniqueLiveFor i r = true) :
    uniqueCount (r :: reg) i = uniqueCount reg i + 1 := by
  simp [uniqueCount, List.filter_cons, h]

lemma uniqueCount_cons_other {reg : Registry} {i : ServiceId} {r : RegRecord}
    (h : ¬ r.id = i) :
    uniqueCount (r :: reg) i = uniqueCount reg i := by
  have hr : ¬ isUniqueLiveFor i r = true := by
    rw [isUniqueLiveFor_eq_true]
    rintro ⟨hid, -, -⟩
    exact h hid
  simp [uniqueCount, List.filter_cons, hr]

lemma register_ok_inv {reg reg2 : Registry} {form : RegistrationForm}
    {owner : ObjectId} {cap : RegRecord}
    (h : register reg form owner = .ok (reg2, cap)) :
    uniqueLiveFor reg form.id = false ∧
      cap = ⟨form.id, owner, .Shared, form.entry, true⟩ ∧ reg2 = cap :: reg := by
  by_cases hu : uniqueLiveFor reg form.id
  · simp [register, hu] at h
  · simp only [register, hu, if_false, Bool.false_eq_true, ite_false, Except.ok.injEq,
      Prod.mk.injEq] at h
    exact ⟨by simp [hu], h.2.symm, by rw [← h.1, h.2]⟩

lemma register_unique_ok_inv {reg reg2 : Registry} {form : RegistrationForm}
    {owner : ObjectId} {cap : RegRecord}
    (h : register_unique reg form owner = .ok (reg2, cap)) :
    liveFor reg form.id = false ∧
      cap = ⟨form.id, owner, .Unique, form.entry, true⟩ ∧ reg2 = cap :: reg := by
  by_cases hu : liveFor reg form.id
  · simp [register_unique, hu] at h
  · simp only [register_unique, hu, if_false, Bool.false_eq_true, ite_false, Except.ok.injEq,
      Prod.mk.injEq] at h
    exact ⟨by simp [hu], h.2.symm, by rw [← h.1, h.2]⟩

lemma register_error_of_uniqueLive {reg : Registry} {i : ServiceId}
    (h : uniqueLiveFor reg i = true) (form : RegistrationForm) (owner : ObjectId)
    (hid : form.id = i) :
    register reg form owner = .error .UniquelyRegistered := by
  simp [register, hid, h]

lemma register_unique_error_of_live {reg : Registry} {i : ServiceId}
    (h : liveFor reg i = true) (form : RegistrationForm) (owner : ObjectId)
    (hid : form.id = i) :
    register_unique reg form owner = .error .AlreadyRegistered := by
  simp [register_unique, hid, h]

lemma atMostOneUnique_step {reg reg2 : Registry}
    (hstep : RegStep reg reg2) (hinv : atMostOneUnique reg) :
    atMostOneUnique reg2 := by
  intro i
  cases hstep with
  | regOk h =>
    obtain ⟨-, hcap, hreg2⟩ := register_ok_inv h
    rw [hreg2, hcap, uniqueCount_cons_shared rfl]
    exact hinv i
  | regUniqueOk h =>
    obtain ⟨hlive, hcap, hreg2⟩ := register_unique_ok_inv h
    subst hcap
    subst hreg2
    rename_i form owner
    by_cases hid : form.id = i
    · subst hid
      rw [uniqueCount_cons_unique (by rw [isUniqueLiveFor_eq_true]; exact ⟨rfl, rfl, rfl⟩),
        uniqueCount_eq_zero_of_liveFor_false hlive]
    · rw [uniqueCount_cons_other hid]
      exact hinv i
  | disc owned =>
    exact le_trans (uniqueCount_le_of_sublist (List.erase_sublist owned reg)) (hinv i)
  | death owner =>
    exact le_trans (uniqueCount_le_of_sublist (List.filter_sublist reg)) (hinv i)

lemma atMostOneUnique_reachable {reg : Registry}
    (h : ReachableReg reg) : atMostOneUnique reg := by
  induction h with
  | refl => intro i; simp [uniqueCount, List.filter]
  | tail _ hstep ih => exact atMostOneUnique_step hstep ih

lemma uniqueLiveFor_eq_false_of_liveFor_false {reg : Registry} {i : ServiceId}
    (h : liveFor reg i = false) : uniqueLiveFor reg i = false := by
  cases hu : uniqueLiveFor reg i
  · rfl
  · rw [liveFor_of_uniqueLiveFor hu] at h
    exact absurd h (by simp)

/-- Claim C1: for every ServiceId, at most one `Unique` registration is
live at any time in any reachable registry, and while a live `Unique`
registration for an id exists, `register` for that id fails with
`UniquelyRegistered` and `register_unique` fails with
`AlreadyRegistered`. -/
theorem c1_registration_uniqueness :
    (∀ reg : Registry, ReachableReg reg → atMostOneUnique reg) ∧
    (∀ (reg : Registry) (form : RegistrationForm) (owner : ObjectId),
      uniqueLiveFor reg form.id = true →
        register reg form owner = .error .UniquelyRegistered ∧
        register_unique reg form owner = .error .AlreadyRegistered) := by
  constructor
  · exact fun _ h => atMostOneUnique_reachable h
  · intro reg form owner h
    exact ⟨register_error_of_uniqueLive h form owner rfl,
      register_unique_error_of_live (liveFor_of_uniqueLiveFor h) form owner rfl⟩

/-- Witness for C1 at a registry reached by one unique registration. -/
theorem c1_registration_uniqueness_witness :
    atMostOneUnique [(⟨1, 2, Uniqueness.Unique, 0, true⟩ : RegRecord)] ∧
    register [(⟨1, 2, Uniqueness.Unique, 0, true⟩ : RegRecord)] ⟨5, 1⟩ 3 =
      .error .UniquelyRegistered ∧
    register_unique [(⟨1, 2, Uniqueness.Unique, 0, true⟩ : RegRecord)] ⟨5, 1⟩ 3 =
      .error .AlreadyRegistered :=
  have h := c1_registration_uniqueness
  ⟨h.1 _ (Relation.ReflTransGen.single
      (@RegStep.regUniqueOk [] [⟨1, 2, Uniqueness.Unique, 0, true⟩] ⟨0, 1⟩ 2
        ⟨1, 2, Uniqueness.Unique, 0, true⟩ rfl)),
    (h.2 _ ⟨5, 1⟩ 3 (by decide)).1,
    (h.2 _ ⟨5, 1⟩ 3 (by decide)).2⟩

/-- Claim C2: `register_unique` succeeds exactly when no live
registration, shared or unique, exists for the requested id; when one
exists it fails with `AlreadyRegistered`; on success the inserted
`Unique` record blocks every further registration of either kind for the
id, and `discontinue` of the new capability restores the registry. -/
theorem c2_register_unique_spec :
    ∀ (reg : Registry) (form : RegistrationForm) (owner : ObjectId),
      (liveFor reg form.id = true →
        register_unique reg form owner = .error .AlreadyRegistered) ∧
      (liveFor reg form.id = false →
        ∃ cap : RegRecord,
          register_unique reg form owner = .ok (cap :: reg, cap) ∧
          cap = ⟨form.id, owner, .Unique, form.entry, true⟩ ∧
          (∀ (form2 : RegistrationForm) (owner2 : ObjectId), form2.id = form.id →
            register (cap :: reg) form2 owner2 = .error .UniquelyRegistered ∧
            register_unique (cap :: reg) form2 owner2 = .error .AlreadyRegistered) ∧
          (discontinue (cap :: reg) cap).1 = reg) := by
  intro reg form owner
  constructor
  · intro h
    exact register_unique_error_of_live h form owner rfl
  · intro h
    refine ⟨⟨form.id, owner, .Unique, form.entry, true⟩, by simp [register_unique, h],
      rfl, ?_, ?_⟩
    · intro form2 owner2 hid
      have hu : uniqueLiveFor (⟨form.id, owner, .Unique, form.entry, true⟩ :: reg) form.id
          = true := by
        simp [uniqueLiveFor, isUniqueLiveFor, isLiveFor]
      exact ⟨register_error_of_uniqueLive hu form2 owner2 hid,
        register_unique_error_of_live (liveFor_of_uniqueLiveFor hu) form2 owner2 hid⟩
    · simp [discontinue]

/-- Witness for C2 on the empty registry. -/
theorem c2_register_unique_spec_witness :
    register_unique ([] : Registry) ⟨7, 4⟩ 9 =
      .ok ([⟨4, 9, Uniqueness.Unique, 7, true⟩], ⟨4, 9, Uniqueness.Unique, 7, true⟩) ∧
    register [(⟨4, 9, Uniqueness.Unique, 7, true⟩ : RegRecord)] ⟨8, 4⟩ 10 =
      .error .UniquelyRegistered ∧
    register_unique [(⟨4, 9, Uniqueness.Unique, 7, true⟩ : RegRecord)] ⟨8, 4⟩ 10 =
      .error .AlreadyRegistered ∧
    (discontinue [(⟨4, 9, Uniqueness.Unique, 7, true⟩ : RegRecord)]
      ⟨4, 9, Uniqueness.Unique, 7, true⟩).1 = [] := by
  obtain ⟨cap, h1, hcap, hblock, hdisc⟩ :=
    (c2_register_unique_spec [] ⟨7, 4⟩ 9).2 (by decide)
  subst hcap
  exact ⟨h1, (hblock ⟨8, 4⟩ 10 rfl).1, (hblock ⟨8, 4⟩ 10 rfl).2, hdisc⟩

/-- Claim C6: `discontinue` of a freshly obtained capability removes the
registration record, hands back the original registration form, leaves
the capability outside the registry so it cannot act again, frees the id,
and a subsequent `register` with the returned form succeeds with a fresh
registration built only from the form and the new owner. -/
theorem c6_discontinue_roundtrip :
    ∀ (reg reg2 : Registry) (form : RegistrationForm) (owner : ObjectId) (cap : RegRecord),
      register_unique reg form owner = .ok (reg2, cap) →
        discontinue reg2 cap = (reg, ⟨form.entry, form.id⟩) ∧
        cap ∉ (discontinue reg2 cap).1 ∧
        liveFor (discontinue reg2 cap).1 form.id = false ∧
        (∀ owner2 : ObjectId,
          register (discontinue reg2 cap).1 ⟨form.entry, form.id⟩ owner2 =
            .ok (⟨form.id, owner2, .Shared, form.entry, true⟩ :: (discontinue reg2 cap).1,
              ⟨form.id, owner2, .Shared, form.entry, true⟩)) := by
  intro reg reg2 form owner cap h
  obtain ⟨hlive, hcap, hreg2⟩ := register_unique_ok_inv h
  subst hcap
  subst hreg2
  have hd : discontinue (⟨form.id, owner, .Unique, form.entry, true⟩ :: reg)
      ⟨form.id, owner, .Unique, form.entry, true⟩ = (reg, ⟨form.entry, form.id⟩) := by
    simp [discontinue]
  rw [hd]
  refine ⟨rfl, ?_, hlive, ?_⟩
  · intro hmem
    have : liveFor reg form.id = true := by
      simp only [liveFor, List.any_eq_true]
      exact ⟨_, hmem, by simp [isLiveFor]⟩
    rw [this] at hlive
    exact absurd hlive (by simp)
  · intro owner2
    simp [register, uniqueLiveFor_eq_false_of_liveFor_false hlive]

/-- Witness for C6 with the unique registration of id 4. -/
theorem c6_discontinue_roundtrip_witness :
    discontinue [(⟨4, 9, Uniqueness.Unique, 7, true⟩ : RegRecord)]
      ⟨4, 9, Uniqueness.Unique, 7, true⟩ = ([], ⟨7, 4⟩) ∧
    register (discontinue [(⟨4, 9, Uniqueness.Unique, 7, true⟩ : RegRecord)]
        ⟨4, 9, Uniqueness.Unique, 7, true⟩).1 ⟨7, 4⟩ 11 =
      .ok ([⟨4, 11, Uniqueness.Shared, 7, true⟩], ⟨4, 11, Uniqueness.Shared, 7, true⟩) := by
  have h := c6_discontinue_roundtrip [] [⟨4, 9, Uniqueness.Unique, 7, true⟩] ⟨7, 4⟩ 9
    ⟨4, 9, Uniqueness.Unique, 7, true⟩ rfl
  exact ⟨h.1, h.2.2.2 11⟩

/-- Claim C7: `connect` returns a newly constructed socket bound to the
calling requester and the chosen live provider, with the registered entry
handler of the provider scheduled on the provider-side endpoint, exactly
when the registry lookup finds a live registration; otherwise it fails by
returning the original service value back to the caller. -/
theorem c7_connect_spec :
    ∀ (reg : Registry) (caller : ObjectId) (s : Service),
      (∀ r : RegRecord, lookup reg s.id = some r →
        connect reg caller s =
          .ok (⟨caller, r.owner, s.id, true⟩, ⟨r.handler, ⟨caller, r.owner, s.id, true⟩⟩)) ∧
      (lookup reg s.id = none → connect reg caller s = .error s) ∧
      liveFor reg s.id = (lookup reg s.id).isSome := by
  intro reg caller s
  refine ⟨?_, ?_, ?_⟩
  · intro r h
    simp [connect, h]
  · intro h
    simp [connect, h]
  · cases hf : lookup reg s.id with
    | none =>
      have hall := List.find?_eq_none.mp hf
      simp only [Option.isSome_none]
      simp only [liveFor, List.any_eq_false]
      exact hall
    | some r =>
      have hr : isLiveFor s.id r = true := List.find?_some hf
      have hmem : r ∈ reg := List.mem_of_find?_eq_some hf
      simp only [Option.isSome_some]
      simp only [liveFor, List.any_eq_true]
      exact ⟨r, hmem, hr⟩

/-- Witness for C7: a successful connection against a live shared
registration, and a failed one against the empty registry. -/
theorem c7_connect_spec_witness :
    connect [(⟨4, 2, Uniqueness.Shared, 7, true⟩ : RegRecord)] 9 ⟨4⟩ =
      .ok (⟨9, 2, 4, true⟩, ⟨7, ⟨9, 2, 4, true⟩⟩) ∧
    connect ([] : Registry) 9 ⟨4⟩ = .error ⟨4⟩ :=
  ⟨(c7_connect_spec [⟨4, 2, Uniqueness.Shared, 7, true⟩] 9 ⟨4⟩).1
      ⟨4, 2, Uniqueness.Shared, 7, true⟩ rfl,
    (c7_connect_spec [] 9 ⟨4⟩).2.1 rfl⟩

/-- Claim C8: `kill` succeeds exactly when the object is alive: on
success every registration owned by the object is gone from the registry,
every channel where it is an endpoint is closed, and the object is no
longer alive, so that a second `kill` fails with `NotAlive`; killing an
object that is not alive fails with `NotAlive`. -/
theorem c8_kill_spec :
    ∀ (sys : System) (o : ObjectId),
      (is_alive sys o = true →
        ∃ sys2 : System, kill sys o = .ok sys2 ∧
          (∀ r ∈ sys2.registry, ¬ r.owner = o) ∧
          (∀ c ∈ sys2.channels, c.requester = o ∨ c.provider = o → c.opened = false) ∧
          is_alive sys2 o = false ∧
          kill sys2 o = .error .NotAlive) ∧
      (is_alive sys o = false → kill sys o = .error .NotAlive) := by
  intro sys o
  constructor
  · intro h
    have halive : is_alive ⟨on_object_death sys.registry o,
        sys.channels.map fun c =>
          if c.requester == o || c.provider == o then { c with opened := false } else c,
        sys.alive.filter fun x => !(x == o)⟩ o = false := by
      simp [is_alive, List.mem_filter]
    refine ⟨_, by rw [kill, if_pos h], ?_, ?_, halive, by rw [kill, halive]; rfl⟩
    · intro r hmem
      simp only [on_object_death, List.mem_filter, Bool.not_eq_eq_eq_not, Bool.not_true,
        beq_eq_false_iff_ne, ne_eq] at hmem
      exact hmem.2
    · intro c hmem hend
      simp only [List.mem_map] at hmem
      obtain ⟨c0, -, hc⟩ := hmem
      by_cases hcase : (c0.requester == o || c0.provider == o) = true
      · rw [← hc, if_pos hcase]
      · rw [← hc, if_neg hcase] at hend ⊢
        simp only [Bool.or_eq_true, beq_iff_eq] at hcase
        exact absurd hend hcase
  · intro h
    rw [kill, h]
    rfl

/-- Witness for C8 on a system with one alive object owning one
registration and one channel endpoint. -/
theorem c8_kill_spec_witness :
    kill ⟨[⟨1, 5, Uniqueness.Shared, 0, true⟩], [⟨5, 2, true⟩], [5, 2]⟩ 5 =
      .ok ⟨[], [⟨5, 2, false⟩], [2]⟩ ∧
    kill ⟨[], [⟨5, 2, false⟩], [2]⟩ 5 = .error .NotAlive := by
  obtain ⟨sys2, hk, -, -, -, hk2⟩ :=
    (c8_kill_spec ⟨[⟨1, 5, Uniqueness.Shared, 0, true⟩], [⟨5, 2, true⟩], [5, 2]⟩ 5).1 rfl
  have h2 : kill ⟨[⟨1, 5, Uniqueness.Shared, 0, true⟩], [⟨5, 2, true⟩], [5, 2]⟩ 5 =
      .ok ⟨[], [⟨5, 2, false⟩], [2]⟩ := rfl
  rw [h2] at hk
  have hs : sys2 = ⟨[], [⟨5, 2, false⟩], [2]⟩ := (Except.ok.inj hk).symm
  rw [hs] at hk2
  exact ⟨h2, hk2⟩

lemma scanEvents_eq_none_iff (st : ChanState) (evs : List WaitEvent) :
    (scanEvents st evs).1 = none ↔ ∀ ev ∈ evs, ev = WaitEvent.tick := by
  induction evs with
  | nil => simp [scanEvents]
  | cons ev rest ih =>
    cases ev with
    | tick => simp [scanEvents, List.forall_mem_cons, ih]
    | dataArrives d => simp [scanEvents]
    | channelCloses => simp [scanEvents]

lemma scanEvents_none_state (st : ChanState) (evs : List WaitEvent) :
    (scanEvents st evs).1 = none → (scanEvents st evs).2 = st := by
  induction evs with
  | nil => intro _; rfl
  | cons ev rest ih =>
    cases ev with
    | tick =>
      intro h
      simp only [scanEvents] at h ⊢
      exact ih h
    | dataArrives d => intro h; simp [scanEvents] at h
    | channelCloses => intro h; simp [scanEvents] at h

/-- Claim C3: when both endpoints of one open quiet channel issue the
same symmetric blocking operation, the endpoint that issued second — and
only that endpoint — receives `Lockup`, while the first caller is still
pending; this holds both for two `receive` calls with no pending send and
for two `send` calls with no one receiving. -/
theorem c3_lockup_exclusivity :
    ∀ (st : ChanState) (e : Endpoint) (d d2 : Data),
      st.opened = true → st.pendA = .idle → st.pendB = .idle →
      st.inboxA = [] → st.inboxB = [] →
        ((receive st e).1 = .blocked ∧
          (receive (receive st e).2 e.peer).1 = .fail .Lockup ∧
          ((receive (receive st e).2 e.peer).2).pend e = .recvWait) ∧
        ((send st e d).1 = .blocked ∧
          (send (send st e d).2 e.peer d2).1 = .fail .Lockup ∧
          ((send (send st e d).2 e.peer d2).2).pend e = .sendWait d) := by
  intro st e d d2 hop hpa hpb hia hib
  cases e <;>
    simp [receive, send, Endpoint.peer, ChanState.pend, ChanState.inbox,
      ChanState.withPend, ChanState.withInbox, hop, hpa, hpb, hia, hib]

/-- Witness for C3 on the open quiet channel: the second symmetric caller
gets `Lockup`, the first is blocked. -/
theorem c3_lockup_exclusivity_witness :
    (receive ⟨true, Pending.idle, Pending.idle, [], []⟩ .A).1 = .blocked ∧
    (receive (receive ⟨true, Pending.idle, Pending.idle, [], []⟩ .A).2 .B).1 =
      .fail .Lockup ∧
    (send ⟨true, Pending.idle, Pending.idle, [], []⟩ .A 3).1 = .blocked ∧
    (send (send ⟨true, Pending.idle, Pending.idle, [], []⟩ .A 3).2 .B 4).1 =
      .fail .Lockup :=
  have h := c3_lockup_exclusivity ⟨true, Pending.idle, Pending.idle, [], []⟩ .A 3 4
    rfl rfl rfl rfl rfl
  ⟨h.1.1, h.1.2.1, h.2.1, h.2.2.1⟩

/-- Claim C4: closing is terminal and idempotent — a second `close` is a
no-op, no channel operation ever turns a closed channel open again, and
`receive` and `send` on a closed channel return `ChannelClosed` without
blocking and without changing the state. -/
theorem c4_closed_terminal :
    (∀ st : ChanState, close (close st) = close st) ∧
    (∀ st st2 : ChanState, ChanStep st st2 → st.opened = false → st2.opened = false) ∧
    (∀ (st : ChanState) (e : Endpoint) (d : Data), st.opened = false →
      receive st e = (.fail .ChannelClosed, st) ∧
      send st e d = (.fail .ChannelClosed, st) ∧
      (receive st e).1 ≠ .blocked ∧ (send st e d).1 ≠ .blocked) := by
  refine ⟨fun st => rfl, ?_, ?_⟩
  · intro st st2 hstep h
    cases hstep with
    | recv e => simp [receive, h]
    | snd e d => simp [send, h]
    | cls => simp [close]
    | waitRecv e evs => simp [wait_to_receive, h]
    | dlv e d =>
      cases e <;> simp [deliver, ChanState.withInbox, ChanState.inbox, h]
  · intro st e d h
    refine ⟨by simp [receive, h], by simp [send, h], ?_, ?_⟩
    · simp [receive, h]
    · simp [send, h]

/-- Witness for C4 on a concrete closed channel. -/
theorem c4_closed_terminal_witness :
    receive ⟨false, Pending.idle, Pending.idle, [], []⟩ .A =
      (.fail .ChannelClosed, ⟨false, Pending.idle, Pending.idle, [], []⟩) ∧
    send ⟨false, Pending.idle, Pending.idle, [], []⟩ .B 3 =
      (.fail .ChannelClosed, ⟨false, Pending.idle, Pending.idle, [], []⟩) ∧
    (close ⟨false, Pending.idle, Pending.idle, [], []⟩).opened = false :=
  have h := c4_closed_terminal
  ⟨(h.2.2 _ .A 3 rfl).1, (h.2.2 _ .B 3 rfl).2.1,
    h.2.1 _ _ (ChanStep.cls _) rfl⟩

/-- Claim C5: `wait_to_receive` behaves like `receive` bounded by the
window.  On an open channel with no queued data and a quiet peer it
returns `none` exactly when nothing but time passes within the bounded
window — no data arrival and no closure — and a timed-out call leaves
the state untouched, so data delivered after the timeout is received by
a later plain `receive`; when the peer is already suspended in `send`
or in the symmetric `receive`, it returns `some` of exactly the outcome
of plain `receive` with the same resulting state, so timeout and
success are mutually exclusive. -/
theorem c5_wait_to_receive_spec :
    ∀ (st : ChanState) (e : Endpoint) (evs : List WaitEvent) (d : Data),
      st.opened = true → st.inbox e = [] →
        (st.pend e.peer = .idle →
          ((wait_to_receive st e evs).1 = none ↔ ∀ ev ∈ evs, ev = WaitEvent.tick) ∧
          ((wait_to_receive st e evs).1 = none → (wait_to_receive st e evs).2 = st) ∧
          (receive (deliver st e d) e).1 = .got d) ∧
        (∀ d2 : Data, st.pend e.peer = .sendWait d2 →
          (wait_to_receive st e evs).1 = some (.ok d2) ∧
          (receive st e).1 = .got d2 ∧
          (wait_to_receive st e evs).2 = (receive st e).2) ∧
        (st.pend e.peer = .recvWait →
          (wait_to_receive st e evs).1 = some (.error .Lockup) ∧
          (receive st e).1 = .fail .Lockup ∧
          (wait_to_receive st e evs).2 = (receive st e).2) := by
  intro st e evs d hop hin
  refine ⟨?_, ?_, ?_⟩
  · intro hp
    have hw : wait_to_receive st e evs = scanEvents st evs := by
      simp [wait_to_receive, hop, hin, hp]
    refine ⟨hw ▸ scanEvents_eq_none_iff st evs, ?_, ?_⟩
    · rw [hw]
      exact scanEvents_none_state st evs
    · cases e <;>
        simp only [ChanState.inbox] at hin <;>
        simp [receive, deliver, ChanState.inbox, ChanState.withInbox, hop, hin]
  · intro d2 hp
    refine ⟨?_, ?_, ?_⟩ <;> simp [wait_to_receive, receive, hop, hin, hp]
  · intro hp
    refine ⟨?_, ?_, ?_⟩ <;> simp [wait_to_receive, receive, hop, hin, hp]

/-- Witness for C5: on the quiet channel a window of one time tick
yields a timeout with no effect and a datum delivered afterwards is
received; with the peer suspended in `send` the same window yields the
datum at once, as plain `receive` does; with the peer suspended in
`receive` it yields `Lockup`, as plain `receive` does. -/
theorem c5_wait_to_receive_spec_witness :
    (wait_to_receive ⟨true, Pending.idle, Pending.idle, [], []⟩ .A [WaitEvent.tick]).1 =
      none ∧
    (wait_to_receive ⟨true, Pending.idle, Pending.idle, [], []⟩ .A [WaitEvent.tick]).2 =
      ⟨true, Pending.idle, Pending.idle, [], []⟩ ∧
    (receive (deliver ⟨true, Pending.idle, Pending.idle, [], []⟩ .A 7) .A).1 = .got 7 ∧
    (wait_to_receive ⟨true, Pending.idle, Pending.sendWait 5, [], []⟩ .A [WaitEvent.tick]).1 =
      some (.ok 5) ∧
    (receive ⟨true, Pending.idle, Pending.sendWait 5, [], []⟩ .A).1 = .got 5 ∧
    (wait_to_receive ⟨true, Pending.idle, Pending.recvWait, [], []⟩ .A [WaitEvent.tick]).1 =
      some (.error .Lockup) ∧
    (receive ⟨true, Pending.idle, Pending.recvWait, [], []⟩ .A).1 = .fail .Lockup := by
  have h := c5_wait_to_receive_spec ⟨true, Pending.idle, Pending.idle, [], []⟩ .A
    [WaitEvent.tick] 7 rfl rfl
  have hq := h.1 rfl
  have hs := c5_wait_to_receive_spec ⟨true, Pending.idle, Pending.sendWait 5, [], []⟩ .A
    [WaitEvent.tick] 7 rfl rfl
  have hsw := hs.2.1 5 rfl
  have hl := c5_wait_to_receive_spec ⟨true, Pending.idle, Pending.recvWait, [], []⟩ .A
    [WaitEvent.tick] 7 rfl rfl
  have hlw := hl.2.2 rfl
  exact ⟨hq.1.mpr (by decide), hq.2.1 (hq.1.mpr (by decide)), hq.2.2,
    hsw.1, hsw.2.1, hlw.1, hlw.2.1⟩

/-- Claim C9 (settled against the source signature): `Socket::send` takes
the data to transmit, but `Socket::wait_to_send` as declared takes only a
timeout and no data, contradicting its own documentation, which says it
sends data like `send`. -/
theorem c9_wait_to_send_missing_data :
    wait_to_send_params = [SocketParam.timeArg] ∧
    SocketParam.dataArg ∉ wait_to_send_params ∧
    SocketParam.dataArg ∈ send_params := by
  refine ⟨rfl, ?_, ?_⟩ <;> decide

/-- Claim C10: `Service.by_id` is total — defined on every identifier,
whether or not any object provides that service — and the constructed
service round-trips with `Service.id`. -/
theorem c10_by_id_roundtrip : ∀ x : ServiceId, (Service.by_id x).id = x :=
  fun _ => rfl

end CCS
